import Mathlib

/-!
Verification of the MockMate news-ingestion pipeline
(`backend/api/endpoints/trending.py` and `backend/scheduler.py`).

The embedding models:
* fetched news items as the dicts produced by the fetchers;
* the relational store (NewsSource / NewsItem / Question / NewsBasedQuestion
  rows) as lists of records, with a counter generating fresh primary keys
  (the source uses client-side UUID defaults assigned at flush time; only
  freshness matters to the pipeline);
* time as Unix seconds (`Int`), scores as rationals;
* Python string primitives (`in`, `split`, `replace`, `strip`, `lower`,
  `startswith`) as structurally recursive functions on character lists, so
  that concrete runs evaluate inside the kernel;
* the two external effects — the network fetch and the model call — as
  oracle functions supplied by the caller, so that theorems quantifying over
  the oracle express independence from those effects.

A per-source ingestion run commits exactly once, at the end of
`_process_source_config`; the store type below always denotes committed
state, so the run is modelled as one atomic function on stores.
-/

set_option linter.unusedVariables false
set_option allowUnsafeReducibility true
/- Batteries marks the `Rat` arithmetic `@[irreducible]`; concrete score
computations below are checked with `decide`, which needs them to unfold. -/
attribute [semireducible] Rat.add Rat.mul Rat.inv Rat.sub Rat.neg Rat.div Rat.ofScientific

namespace MockMate

/-! ### Python string primitives -/

/-- Substring test on character lists: `subListOf pat l` is true iff `pat`
occurs contiguously inside `l`. -/
def subListOf (pat : List Char) : List Char → Bool
  | [] => pat.isEmpty
  | c :: rest => pat.isPrefixOf (c :: rest) || subListOf pat rest

/-- Python's substring containment `pat in s`. -/
def strContains (s pat : String) : Bool :=
  subListOf pat.toList s.toList

/-- Python's `s.startswith(pat)`. -/
def pyStartsWith (s pat : String) : Bool :=
  pat.data.isPrefixOf s.data

/-- Python's `s.lower()` (the strings in this code base are ASCII). -/
def pyLower (s : String) : String :=
  ⟨s.data.map Char.toLower⟩

/-- Python's `s.strip()` on character lists. -/
def stripList (l : List Char) : List Char :=
  ((l.dropWhile Char.isWhitespace).reverse.dropWhile Char.isWhitespace).reverse

/-- Python's `s.strip()`. -/
def pyStrip (s : String) : String :=
  ⟨stripList s.data⟩

/-- Python's `s.split(sep)` for a non-empty separator, one character at a
time; the fuel argument (instantiated with the length of the string) makes
the recursion structural. -/
def pySplitAux (sep : List Char) : Nat → List Char → List Char → List (List Char)
  | _, [], acc => [acc.reverse]
  | 0, l, acc => [acc.reverse ++ l]
  | fuel + 1, c :: rest, acc =>
    if sep.isPrefixOf (c :: rest) then
      acc.reverse :: pySplitAux sep fuel (List.drop sep.length (c :: rest)) []
    else
      pySplitAux sep fuel rest (c :: acc)

/-- Python's `s.split(sep)`; the separators used by the source are
non-empty literals. -/
def pySplit (s sep : String) : List String :=
  if sep = "" then [s]
  else (pySplitAux sep.data s.data.length s.data []).map (fun l => ⟨l⟩)

/-- Python's `s.replace(old, new)` (non-empty `old`, leftmost,
non-overlapping), with the same structural fuel as `pySplitAux`. -/
def pyReplaceAux (old new : List Char) : Nat → List Char → List Char
  | _, [] => []
  | 0, l => l
  | fuel + 1, c :: rest =>
    if old.isPrefixOf (c :: rest) then
      new ++ pyReplaceAux old new fuel (List.drop old.length (c :: rest))
    else
      c :: pyReplaceAux old new fuel rest

/-- Python's `s.replace(old, new)`. -/
def pyReplace (s old new : String) : String :=
  if old = "" then s
  else ⟨pyReplaceAux old.data new.data s.data.length s.data⟩

/-- Python's `max` on two rationals (spelled out so that concrete values
reduce inside the kernel). -/
def pyMax (a b : ℚ) : ℚ := if a ≤ b then b else a

/-- Python's `min` on two rationals. -/
def pyMin (a b : ℚ) : ℚ := if a ≤ b then a else b

/-! ### Enumerations and schema types -/

/-- `database/schemas.py`: `NewsSourceType`. -/
inductive NewsSourceType
  | RSS | API | WEB_SCRAPING
deriving DecidableEq, Inhabited

/-- `database/schemas.py`: `NewsCategory`. -/
inductive NewsCategory
  | AI | WEB_DEV | MOBILE | DEVOPS | GENERAL_TECH
deriving DecidableEq, Inhabited

/-- The `.value` string of a `NewsCategory` member. -/
def NewsCategory.val : NewsCategory → String
  | .AI => "ai"
  | .WEB_DEV => "web_dev"
  | .MOBILE => "mobile"
  | .DEVOPS => "devops"
  | .GENERAL_TECH => "general_tech"

/-- `list(NewsCategory)` in declaration order. -/
def NewsCategory.all : List NewsCategory :=
  [.AI, .WEB_DEV, .MOBILE, .DEVOPS, .GENERAL_TECH]

/-- `database/schemas.py`: `QuestionType`. -/
inductive QuestionType
  | OPINION | TECHNICAL | BEHAVIORAL
deriving DecidableEq, Inhabited

/-- The `.value` string of a `QuestionType` member. -/
def QuestionType.val : QuestionType → String
  | .OPINION => "opinion"
  | .TECHNICAL => "technical"
  | .BEHAVIORAL => "behavioral"

/-- One fetched news item: the dict built by `fetch_rss_news` /
`fetch_hacker_news_api` (keys title / summary / url / published_at / content).
`url` is an `Option` so that `item.get("url")` returning `None` is
representable; `published_at` is Unix seconds. -/
structure FetchedItem where
  title : String
  summary : String
  url : Option String
  published_at : Int
  content : String
deriving DecidableEq, Inhabited

/-- Python truthiness of `item.get("url")`: falsy when the key is absent or
the string is empty. -/
def urlFalsy : Option String → Bool
  | none => true
  | some u => u == ""

/-! ### Deduplication -/

/-- First loop of `_filter_new_news_items` (trending.py:512–517): in-batch URL
dedup, first occurrence wins; items whose URL is falsy are dropped
(`if not url or url in seen_urls: continue`). -/
def dedupByUrl (seen : List String) : List FetchedItem → List FetchedItem
  | [] => []
  | item :: rest =>
    match item.url with
    | none => dedupByUrl seen rest
    | some u =>
      if u = "" ∨ u ∈ seen then dedupByUrl seen rest
      else item :: dedupByUrl (u :: seen) rest

/-- `_filter_new_news_items` (trending.py:507–527). `existingUrls` stands for
the list of `NewsItem.url` values in the store; the SQL query restricts the
existence check to the batch's own URLs, which does not change which items
pass the final `not in existing_urls` filter. -/
def _filter_new_news_items (existingUrls : List String)
    (news_items : List FetchedItem) : List FetchedItem :=
  let unique_items := dedupByUrl [] news_items
  unique_items.filter (fun item => !(decide ((item.url.getD "") ∈ existingUrls)))

/-! ### Relevance scoring and question generation -/

/-- `position_keywords` dict in `calculate_relevance_score`
(trending.py:301–307), with `dict.get(position, [])`. -/
def position_keywords (position : String) : List String :=
  if position = "frontend" then
    ["react", "vue", "angular", "javascript", "css", "html", "ui", "ux"]
  else if position = "backend" then
    ["api", "database", "server", "python", "java", "node", "sql"]
  else if position = "fullstack" then
    ["full stack", "frontend", "backend", "web development"]
  else if position = "mobile" then
    ["mobile", "ios", "android", "react native", "flutter", "app"]
  else if position = "devops" then
    ["docker", "kubernetes", "aws", "cloud", "deployment", "ci/cd"]
  else []

/-- `calculate_relevance_score` (trending.py:294–327).  `question` and
`category` are taken but unused, exactly as in the source.  `days_old`
mirrors `timedelta.days`, i.e. floor division of the elapsed seconds
(negative for future items, as in Python). -/
def calculate_relevance_score (news_item : FetchedItem) (question : String)
    (category : NewsCategory) (position : String) (now : Int) : ℚ :=
  let score : ℚ := 1/2
  let keywords := position_keywords position
  let title_lower := pyLower news_item.title
  let summary_lower := pyLower news_item.summary
  let score := keywords.foldl
    (fun s keyword =>
      if strContains title_lower keyword || strContains summary_lower keyword then
        s + 1/10
      else s)
    score
  let days_old := Int.fdiv (now - news_item.published_at) 86400
  let score :=
    if days_old ≤ 1 then score + 1/5
    else if days_old ≤ 3 then score + 1/10
    else score
  pyMin 1 (pyMax 0 score)

/-- `determine_question_type` (trending.py:330–345). -/
def determine_question_type (question : String) : QuestionType :=
  let question_lower := pyLower question
  if ["how would you", "what do you think", "your opinion", "perspective"].any
      (fun word => strContains question_lower word) then
    .OPINION
  else if ["implement", "design", "architecture", "technical", "code"].any
      (fun word => strContains question_lower word) then
    .TECHNICAL
  else
    .BEHAVIORAL

/-- `database/schemas.py`: `GeneratedQuestion`. -/
structure GeneratedQuestion where
  content : String
  question_type : QuestionType
  position : String
  difficulty : String
  expected_keywords : List String
deriving DecidableEq, Inhabited

/-- The line loop of `generate_question_from_news` (trending.py:254–258):
later `QUESTION:` / `REASONING:` lines overwrite earlier ones. -/
def parseQuestionLines (lines : List String) : String × String :=
  lines.foldl
    (fun acc line =>
      if pyStartsWith line "QUESTION:" then
        (pyStrip (pyReplace line "QUESTION:" ""), acc.2)
      else if pyStartsWith line "REASONING:" then
        (acc.1, pyStrip (pyReplace line "REASONING:" ""))
      else acc)
    ("", "")

/-- `generate_question_from_news` (trending.py:189–291).  `resp` models the
model call: `.ok raw` is a completed call whose message content (after
`or ""`) is `raw`; `.error ()` is any `Exception` raised inside the `try`
block, which the handler at trending.py:289 turns into `(None, "", 0.0)`.
The short-title guard precedes the call, so for such items the result does
not depend on `resp` at all (no model call is made). -/
def generate_question_from_news (news_item : FetchedItem) (position : String)
    (category : NewsCategory) (resp : Except Unit String) (now : Int) :
    Option GeneratedQuestion × String × ℚ :=
  if news_item.title = "" ∨ news_item.title.length < 10 then
    (none, "", 0)
  else
    match resp with
    | .error _ => (none, "", 0)
    | .ok raw =>
      let content := pyStrip raw
      let lines := pySplit content "\n"
      let parsed := parseQuestionLines lines
      let question_content :=
        if parsed.1 = "" then
          -- fallback parsing (trending.py:260–265)
          pyStrip ((pySplit ((pySplit content "QUESTION:").getLastD "")
            "REASONING:").headD "")
        else parsed.1
      let ai_reasoning :=
        if parsed.1 = "" then
          if strContains content "REASONING:" then
            pyStrip ((pySplit content "REASONING:").getLastD "")
          else ""
        else parsed.2
      let relevance_score :=
        calculate_relevance_score news_item question_content category position now
      let question_type := determine_question_type question_content
      let generated_question : GeneratedQuestion :=
        { content := question_content
          question_type := question_type
          position := position
          difficulty := "medium"
          expected_keywords :=
            ["current trends", "industry insight", "technical opinion"] }
      (some generated_question, ai_reasoning, relevance_score)

/-! ### The relational store -/

/-- A `news_sources` row (`database/models.py:128`). Primary keys are
modelled as `Nat` drawn from the store's fresh-id counter. -/
structure NewsSourceRow where
  id : Nat
  name : String
  source_type : NewsSourceType
  url : String
  category : String
  is_active : Bool
  last_fetched : Option Int
deriving DecidableEq, Inhabited

/-- A `news_items` row (`database/models.py:156`). -/
structure NewsItemRow where
  id : Nat
  source_id : Nat
  title : String
  summary : String
  content : String
  url : String
  published_at : Int
  category : String
  is_processed : Bool
deriving DecidableEq, Inhabited

/-- A `questions` row (`database/models.py:33`), restricted to the columns
the ingestion pipeline writes. -/
structure QuestionRow where
  id : Nat
  content : String
  position : String
  difficulty : String
  question_type : String
  expected_keywords : List String
deriving DecidableEq, Inhabited

/-- A `news_based_questions` row (`database/models.py:181`). -/
structure NewsBasedQuestionRow where
  id : Nat
  news_item_id : Nat
  question_id : Nat
  relevance_score : ℚ
  question_type : String
  ai_reasoning : String
deriving DecidableEq, Inhabited

/-- The committed database state seen by the ingestion pipeline, plus a
counter for fresh primary keys. -/
structure Store where
  sources : List NewsSourceRow
  news_items : List NewsItemRow
  questions : List QuestionRow
  news_based : List NewsBasedQuestionRow
  next_id : Nat
deriving DecidableEq, Inhabited

/-- The source configurations of the `NEWS_SOURCES` table
(trending.py:32–66). -/
structure SourceConfig where
  name : String
  url : String
  source_type : NewsSourceType
deriving DecidableEq, Inhabited

/-- `NEWS_SOURCES` (trending.py:32–66); `NEWS_SOURCES.get(cat, [])` yields
`[]` for `GENERAL_TECH`, which has no entry. -/
def NEWS_SOURCES : NewsCategory → List SourceConfig
  | .AI =>
    [⟨"AI News from Dev.to", "https://dev.to/feed/tag/ai", .RSS⟩,
     ⟨"Hacker News - AI",
      "https://hn.algolia.com/api/v1/search?tags=story&query=AI&hitsPerPage=10",
      .API⟩]
  | .WEB_DEV => [⟨"Web Development from Dev.to", "https://dev.to/feed/tag/webdev", .RSS⟩]
  | .MOBILE => [⟨"Mobile Development from Dev.to", "https://dev.to/feed/tag/mobile", .RSS⟩]
  | .DEVOPS => [⟨"DevOps from Dev.to", "https://dev.to/feed/tag/devops", .RSS⟩]
  | .GENERAL_TECH => []

/-- `DEFAULT_POSITIONS` (trending.py:69). -/
def DEFAULT_POSITIONS : List String :=
  ["frontend", "backend", "fullstack", "mobile", "devops"]

/-- `_get_or_create_source` (trending.py:468–493): look the source up by
(url, category); create it (with a fresh id, `last_fetched = None`) when
absent. -/
def _get_or_create_source (store : Store) (category : NewsCategory)
    (cfg : SourceConfig) : Store × NewsSourceRow :=
  match store.sources.find?
      (fun s => decide (s.url = cfg.url ∧ s.category = category.val)) with
  | some source => (store, source)
  | none =>
    let source : NewsSourceRow :=
      { id := store.next_id, name := cfg.name, source_type := cfg.source_type,
        url := cfg.url, category := category.val, is_active := true,
        last_fetched := none }
    ({ store with sources := store.sources ++ [source],
                  next_id := store.next_id + 1 }, source)

/-- `source.last_fetched = datetime.now(UTC)` followed by commit: the row
with the source's id gets the new timestamp. -/
def stampSource (store : Store) (source_id : Nat) (now : Int) : Store :=
  { store with
      sources := store.sources.map
        (fun s => if s.id = source_id then { s with last_fetched := some now } else s) }

/-- `_build_news_model` (trending.py:530–543); the id is assigned by the
flush at trending.py:421. -/
def _build_news_model (source_id id : Nat) (news_data : FetchedItem)
    (category : NewsCategory) : NewsItemRow :=
  { id := id, source_id := source_id, title := news_data.title,
    summary := news_data.summary, content := news_data.content,
    url := news_data.url.getD "", published_at := news_data.published_at,
    category := category.val, is_processed := false }

/-- The outcome of one `generate_question_from_news(...)` task as seen by
`asyncio.gather(..., return_exceptions=True)` (trending.py:565): either the
coroutine escaped with a `BaseException` — collected by `gather` and skipped
at trending.py:569 — or it returned, in which case `resp` models the model
call inside it (`.error ()` = the call raised an ordinary `Exception`,
caught at trending.py:289). -/
inductive GenOutcome
  | escape
  | ret (resp : Except Unit String)
deriving Inhabited

/-- `GeneratedNewsQuestionResult` (trending.py:72–79). -/
structure GeneratedNewsQuestionResult where
  news_index : Nat
  question_data : GeneratedQuestion
  ai_reasoning : String
  relevance_score : ℚ
deriving DecidableEq, Inhabited

/-- The body of the result loop of `_generate_questions_for_news_items`
(trending.py:568–582) for one `(index, position)` context: skip escaped
tasks, then keep the triple only when `question_data` is truthy (a
`GeneratedQuestion` instance, i.e. not `None`) and the score exceeds 0.3. -/
def pairOutcome (news_items : List FetchedItem) (category : NewsCategory)
    (oracle : Nat → String → GenOutcome) (now : Int) (ip : Nat × String) :
    Option GeneratedNewsQuestionResult :=
  match oracle ip.1 ip.2 with
  | .escape => none
  | .ret resp =>
    match generate_question_from_news (news_items.getD ip.1 default) ip.2
        category resp now with
    | (none, _, _) => none
    | (some question_data, ai_reasoning, relevance_score) =>
      if 3/10 < relevance_score then
        some { news_index := ip.1, question_data := question_data,
               ai_reasoning := ai_reasoning, relevance_score := relevance_score }
      else none

/-- `_generate_questions_for_news_items` (trending.py:546–584): the
`(index, position)` fan-out, gathered and filtered per pair. -/
def _generate_questions_for_news_items (news_items : List FetchedItem)
    (positions : List String) (category : NewsCategory)
    (oracle : Nat → String → GenOutcome) (now : Int) :
    List GeneratedNewsQuestionResult :=
  if news_items.isEmpty then []
  else
    let task_contexts := (List.range news_items.length).flatMap
      (fun index => positions.map (fun position => (index, position)))
    task_contexts.filterMap (pairOutcome news_items category oracle now)

/-- `_process_source_config` (trending.py:397–465), the per-source ingestion
run.  `fetched` is the result of `_fetch_news_for_source` (network I/O,
supplied by the caller); `oracle` resolves the generation fan-out.  The
source commits once, at trending.py:463 (or at trending.py:410/416 on the
early returns); the returned store is that committed state.  ORM objects
mutated before the commit (`is_processed`, `last_fetched`) therefore appear
with their final values. -/
def _process_source_config (store : Store) (category : NewsCategory)
    (cfg : SourceConfig) (fetched : List FetchedItem)
    (positions : List String) (oracle : Nat → String → GenOutcome)
    (now : Int) : Store × Nat :=
  let gc := _get_or_create_source store category cfg
  let store1 := gc.1
  let source := gc.2
  if fetched.isEmpty then
    (stampSource store1 source.id now, 0)
  else
    let fresh := _filter_new_news_items (store1.news_items.map (fun n => n.url)) fetched
    if fresh.isEmpty then
      (stampSource store1 source.id now, 0)
    else
      let news_models := (List.range fresh.length).map
        (fun i => _build_news_model source.id (store1.next_id + i)
          (fresh.getD i default) category)
      let store2 := { store1 with
        news_items := store1.news_items ++ news_models,
        next_id := store1.next_id + fresh.length }
      let results := _generate_questions_for_news_items fresh positions category oracle now
      let question_models := (List.range results.length).map (fun k =>
        let r := results.getD k default
        QuestionRow.mk (store2.next_id + k) r.question_data.content
          r.question_data.position r.question_data.difficulty
          r.question_data.question_type.val r.question_data.expected_keywords)
      let store3 := { store2 with
        questions := store2.questions ++ question_models,
        next_id := store2.next_id + results.length }
      let news_based_models := (List.range results.length).map (fun k =>
        let r := results.getD k default
        NewsBasedQuestionRow.mk (store3.next_id + k)
          ((news_models.getD r.news_index default).id) (store2.next_id + k)
          r.relevance_score r.question_data.question_type.val r.ai_reasoning)
      let store4 := { store3 with
        news_based := store3.news_based ++ news_based_models,
        next_id := store3.next_id + news_based_models.length }
      -- `for news_item in news_models: news_item.is_processed = True`
      -- (trending.py:459–460) mutates exactly the freshly added objects.
      let store5 := { store4 with
        news_items := store1.news_items ++
          news_models.map (fun n => { n with is_processed := true }) }
      (stampSource store5 source.id now, news_based_models.length)

/-- `process_news_and_generate_questions` (trending.py:372–394): iterate the
configured sources of the selected categories (all categories when
`category` is `None`).  `fetchO` models `_fetch_news_for_source` (keyed by
the config and the limit), `genO` the generation fan-out per source. -/
def process_news_and_generate_questions (store : Store)
    (category : Option NewsCategory) (limit : Nat)
    (fetchO : SourceConfig → Nat → List FetchedItem)
    (genO : SourceConfig → Nat → String → GenOutcome) (now : Int) :
    Store × Nat :=
  let categories_to_process := match category with
    | some c => [c]
    | none => NewsCategory.all
  categories_to_process.foldl
    (fun acc cat =>
      (NEWS_SOURCES cat).foldl
        (fun acc2 cfg =>
          let r := _process_source_config acc2.1 cat cfg (fetchO cfg limit)
            DEFAULT_POSITIONS (genO cfg) now
          (r.1, acc2.2 + r.2))
        acc)
    (store, 0)

/-! ### The scheduler tick -/

/-- The staleness query of `fetch_news_task` (scheduler.py:17–25): is there
any source with `last_fetched >= now - 4 hours`?  A SQL `NULL` timestamp
never satisfies the comparison. -/
def anyRecentFetch (store : Store) (now : Int) : Bool :=
  store.sources.any (fun s =>
    match s.last_fetched with
    | some t => decide (now - 4 * 3600 ≤ t)
    | none => false)

/-- `fetch_news_task` (scheduler.py:10–42): skip the tick when any source
was fetched within the last 4 hours, otherwise run the orchestrator over
all categories with a per-source limit of 5. -/
def fetch_news_task (store : Store)
    (fetchO : SourceConfig → Nat → List FetchedItem)
    (genO : SourceConfig → Nat → String → GenOutcome) (now : Int) : Store :=
  if anyRecentFetch store now then store
  else (process_news_and_generate_questions store none 5 fetchO genO now).1

/-! ### Characterization of the deduplication filter -/

/-- The `seen_urls` state of the in-batch loop after consuming one item. -/
def seenStep (seen : List String) (item : FetchedItem) : List String :=
  match item.url with
  | none => seen
  | some u => if u = "" ∨ u ∈ seen then seen else u :: seen

/-- Positional survival predicate generalised over the loop state `seen`. -/
def keepAtS (existing seen : List String) (items : List FetchedItem)
    (i : Nat) : Bool :=
  match (items.getD i default).url with
  | none => false
  | some u =>
    !(decide (u = "")) && !(decide (u ∈ seen)) && !(decide (u ∈ existing)) &&
      ((List.range i).all
        (fun j => !(decide ((items.getD j default).url = some u))))

/-- The claim's wording of the filter: the item at index `i` survives iff
its URL is present and non-empty, not already persisted, and not equal to
the URL of any earlier item in the same list. -/
def keepAt (existing : List String) (items : List FetchedItem) (i : Nat) : Bool :=
  keepAtS existing [] items i

/-- The items the claim says the deduplication filter must return: exactly
the surviving positions, in order. -/
def selectedItems (existing : List String) (items : List FetchedItem) :
    List FetchedItem :=
  ((List.range items.length).filter (keepAt existing items)).map
    (fun i => items.getD i default)

lemma dedupByUrl_cons_none {item : FetchedItem} (seen : List String)
    (rest : List FetchedItem) (hu : item.url = none) :
    dedupByUrl seen (item :: rest) = dedupByUrl seen rest := by
  rw [show dedupByUrl seen (item :: rest)
      = (match item.url with
         | none => dedupByUrl seen rest
         | some u => if u = "" ∨ u ∈ seen then dedupByUrl seen rest
             else item :: dedupByUrl (u :: seen) rest) from rfl, hu]

lemma dedupByUrl_cons_some {item : FetchedItem} {u : String}
    (seen : List String) (rest : List FetchedItem) (hu : item.url = some u) :
    dedupByUrl seen (item :: rest)
      = if u = "" ∨ u ∈ seen then dedupByUrl seen rest
        else item :: dedupByUrl (u :: seen) rest := by
  rw [show dedupByUrl seen (item :: rest)
      = (match item.url with
         | none => dedupByUrl seen rest
         | some u => if u = "" ∨ u ∈ seen then dedupByUrl seen rest
             else item :: dedupByUrl (u :: seen) rest) from rfl, hu]

lemma seenStep_none {item : FetchedItem} (seen : List String)
    (hu : item.url = none) : seenStep seen item = seen := by
  rw [show seenStep seen item
      = (match item.url with
         | none => seen
         | some u => if u = "" ∨ u ∈ seen then seen else u :: seen) from rfl, hu]

lemma seenStep_some {item : FetchedItem} {u : String} (seen : List String)
    (hu : item.url = some u) :
    seenStep seen item = if u = "" ∨ u ∈ seen then seen else u :: seen := by
  rw [show seenStep seen item
      = (match item.url with
         | none => seen
         | some u => if u = "" ∨ u ∈ seen then seen else u :: seen) from rfl, hu]

lemma keepAtS_cons (existing seen : List String) (item : FetchedItem)
    (rest : List FetchedItem) (j : Nat) :
    keepAtS existing seen (item :: rest) (j + 1)
      = keepAtS existing (seenStep seen item) rest j := by
  unfold keepAtS seenStep
  rw [List.getD_cons_succ]
  cases hj : (rest.getD j default).url with
  | none => rfl
  | some u =>
    dsimp only
    have hall : ((List.range (j + 1)).all
          (fun j' => !(decide (((item :: rest).getD j' default).url = some u))))
        = (!(decide (item.url = some u)) &&
           ((List.range j).all
             (fun j' => !(decide ((rest.getD j' default).url = some u))))) := by
      rw [List.range_succ_eq_map, List.all_cons, List.all_map]
      simp only [Function.comp_def, List.getD_cons_succ, List.getD_cons_zero]
    rw [hall]
    cases hu : item.url with
    | none =>
      dsimp only
      simp
    | some v =>
      dsimp only
      by_cases hv : v = "" ∨ v ∈ seen
      · rw [if_pos hv, Bool.eq_iff_iff]
        simp only [Bool.and_eq_true, Bool.not_eq_true',
          decide_eq_false_iff_not, decide_eq_true_eq, Option.some.injEq]
        constructor
        · rintro ⟨⟨⟨hne, hns⟩, hex⟩, -, hall'⟩
          exact ⟨⟨⟨hne, hns⟩, hex⟩, hall'⟩
        · rintro ⟨⟨⟨hne, hns⟩, hex⟩, hall'⟩
          refine ⟨⟨⟨hne, hns⟩, hex⟩, ?_, hall'⟩
          rcases hv with hv | hv
          · intro hvu; exact hne (by rw [← hvu, hv])
          · intro hvu; exact hns (by rw [← hvu]; exact hv)
      · rw [if_neg hv, Bool.eq_iff_iff]
        simp only [Bool.and_eq_true, Bool.not_eq_true',
          decide_eq_false_iff_not, decide_eq_true_eq, List.mem_cons,
          Option.some.injEq]
        constructor
        · rintro ⟨⟨⟨hne, hns⟩, hex⟩, hvu, hall'⟩
          refine ⟨⟨⟨hne, ?_⟩, hex⟩, hall'⟩
          rintro (h | h)
          · exact hvu h.symm
          · exact hns h
        · rintro ⟨⟨⟨hne, hns⟩, hex⟩, hall'⟩
          refine ⟨⟨⟨hne, fun h => hns (Or.inr h)⟩, hex⟩,
            fun h => hns (Or.inl h.symm), hall'⟩

lemma keepAtS_zero_of_url_none (existing seen : List String)
    (item : FetchedItem) (rest : List FetchedItem) (hu : item.url = none) :
    keepAtS existing seen (item :: rest) 0 = false := by
  unfold keepAtS
  rw [List.getD_cons_zero, hu]

lemma keepAtS_zero_of_url_some (existing seen : List String)
    (item : FetchedItem) (rest : List FetchedItem) (u : String)
    (hu : item.url = some u) :
    keepAtS existing seen (item :: rest) 0
      = (!(decide (u = "")) && !(decide (u ∈ seen)) && !(decide (u ∈ existing))) := by
  unfold keepAtS
  rw [List.getD_cons_zero, hu]
  simp

lemma dedup_filter_eq (existing : List String) :
    ∀ (items : List FetchedItem) (seen : List String),
    (dedupByUrl seen items).filter
        (fun item => !(decide ((item.url.getD "") ∈ existing)))
      = ((List.range items.length).filter (keepAtS existing seen items)).map
          (fun i => items.getD i default) := by
  intro items
  induction items with
  | nil => intro seen; simp [dedupByUrl]
  | cons item rest ih =>
    intro seen
    have hpred : (keepAtS existing seen (item :: rest)) ∘ Nat.succ
        = keepAtS existing (seenStep seen item) rest := by
      funext j
      exact keepAtS_cons existing seen item rest j
    have hmap : ((fun i => (item :: rest).getD i default) ∘ Nat.succ)
        = (fun j => rest.getD j default) := by
      funext j
      simp [List.getD_cons_succ]
    have htail : ((List.map Nat.succ (List.range rest.length)).filter
          (keepAtS existing seen (item :: rest))).map
          (fun i => (item :: rest).getD i default)
        = ((List.range rest.length).filter
            (keepAtS existing (seenStep seen item) rest)).map
            (fun j => rest.getD j default) := by
      rw [List.filter_map, List.map_map, hpred, hmap]
    have hsplit : ((List.range (item :: rest).length).filter
          (keepAtS existing seen (item :: rest))).map
          (fun i => (item :: rest).getD i default)
        = (if keepAtS existing seen (item :: rest) 0 then [item] else [])
          ++ ((List.range rest.length).filter
              (keepAtS existing (seenStep seen item) rest)).map
            (fun j => rest.getD j default) := by
      rw [List.length_cons, List.range_succ_eq_map, List.filter_cons]
      by_cases h0 : keepAtS existing seen (item :: rest) 0 = true
      · rw [if_pos h0, if_pos h0, List.map_cons, List.getD_cons_zero, htail]
        rfl
      · rw [if_neg h0, if_neg h0, htail]
        rfl
    rw [hsplit]
    cases hu : item.url with
    | none =>
      rw [dedupByUrl_cons_none seen rest hu,
        keepAtS_zero_of_url_none existing seen item rest hu,
        seenStep_none seen hu]
      simp only [Bool.false_eq_true, if_false, List.nil_append]
      exact ih seen
    | some u =>
      rw [keepAtS_zero_of_url_some existing seen item rest u hu,
        dedupByUrl_cons_some seen rest hu, seenStep_some seen hu]
      by_cases hv : u = "" ∨ u ∈ seen
      · have hfalse : (!(decide (u = "")) && !(decide (u ∈ seen))
            && !(decide (u ∈ existing))) = false := by
          rcases hv with hv | hv <;> simp [hv]
        rw [if_pos hv, if_pos hv, hfalse]
        simp only [Bool.false_eq_true, if_false, List.nil_append]
        exact ih seen
      · have hne : u ≠ "" := fun h => hv (Or.inl h)
        have hns : u ∉ seen := fun h => hv (Or.inr h)
        rw [if_neg hv, if_neg hv, List.filter_cons]
        have hgetD : item.url.getD "" = u := by rw [hu]; rfl
        by_cases he : u ∈ existing
        · have hc1 : (!(decide ((item.url.getD "") ∈ existing))) = false := by
            simp [hgetD, he]
          have hc2 : (!(decide (u = "")) && !(decide (u ∈ seen))
              && !(decide (u ∈ existing))) = false := by
            simp [he]
          rw [hc1, hc2]
          simp only [Bool.false_eq_true, if_false, List.nil_append]
          exact ih (u :: seen)
        · have hc1 : (!(decide ((item.url.getD "") ∈ existing))) = true := by
            simp [hgetD, he]
          have hc2 : (!(decide (u = "")) && !(decide (u ∈ seen))
              && !(decide (u ∈ existing))) = true := by
            simp [he, hne, hns]
          rw [hc1, hc2]
          simp only [if_true, List.singleton_append]
          rw [ih (u :: seen)]

/-- The deduplication filter returns exactly the items the spec describes. -/
lemma filter_new_eq_selected (existing : List String)
    (items : List FetchedItem) :
    _filter_new_news_items existing items = selectedItems existing items :=
  dedup_filter_eq existing items []

lemma mem_dedupByUrl {x : FetchedItem} :
    ∀ {items : List FetchedItem} {seen : List String},
    x ∈ dedupByUrl seen items →
      x ∈ items ∧ ∃ u, x.url = some u ∧ u ≠ "" ∧ u ∉ seen := by
  intro items
  induction items with
  | nil => intro seen h; simp [dedupByUrl] at h
  | cons item rest ih =>
    intro seen h
    cases hu : item.url with
    | none =>
      rw [dedupByUrl_cons_none seen rest hu] at h
      obtain ⟨h1, u, hu', hne, hns⟩ := ih h
      exact ⟨List.mem_cons_of_mem _ h1, u, hu', hne, hns⟩
    | some u =>
      rw [dedupByUrl_cons_some seen rest hu] at h
      by_cases hv : u = "" ∨ u ∈ seen
      · rw [if_pos hv] at h
        obtain ⟨h1, w, hw, hne, hns⟩ := ih h
        exact ⟨List.mem_cons_of_mem _ h1, w, hw, hne, hns⟩
      · rw [if_neg hv] at h
        push_neg at hv
        rcases List.mem_cons.mp h with rfl | h'
        · exact ⟨List.mem_cons_self _ _, u, hu, hv.1, hv.2⟩
        · obtain ⟨h1, w, hw, hne, hns⟩ := ih h'
          refine ⟨List.mem_cons_of_mem _ h1, w, hw, hne, ?_⟩
          intro hmem
          exact hns (List.mem_cons_of_mem _ hmem)

lemma dedup_urls_nodup :
    ∀ (items : List FetchedItem) (seen : List String),
    ((dedupByUrl seen items).map (fun it => it.url.getD "")).Nodup := by
  intro items
  induction items with
  | nil => intro seen; simp [dedupByUrl]
  | cons item rest ih =>
    intro seen
    cases hu : item.url with
    | none => rw [dedupByUrl_cons_none seen rest hu]; exact ih seen
    | some u =>
      rw [dedupByUrl_cons_some seen rest hu]
      by_cases hv : u = "" ∨ u ∈ seen
      · rw [if_pos hv]; exact ih seen
      · rw [if_neg hv]
        simp only [List.map_cons, List.nodup_cons]
        refine ⟨?_, ih (u :: seen)⟩
        intro hmem
        obtain ⟨y, hy, hyu⟩ := List.mem_map.mp hmem
        obtain ⟨-, w, hw, hne, hns⟩ := mem_dedupByUrl hy
        rw [hw, hu] at hyu
        simp only [Option.getD_some] at hyu
        exact hns (hyu ▸ List.mem_cons_self u seen)

lemma filter_new_sublist (existing : List String) (items : List FetchedItem) :
    List.Sublist (_filter_new_news_items existing items) (dedupByUrl [] items) :=
  List.filter_sublist _

lemma filter_new_urls_nodup (existing : List String)
    (items : List FetchedItem) :
    ((_filter_new_news_items existing items).map
      (fun it => it.url.getD "")).Nodup :=
  (dedup_urls_nodup items []).sublist
    (List.Sublist.map _ (filter_new_sublist existing items))

lemma mem_filter_new (existing : List String) (items : List FetchedItem)
    (x : FetchedItem) (hx : x ∈ _filter_new_news_items existing items) :
    x ∈ items ∧ (∃ u, x.url = some u ∧ u ≠ "")
      ∧ x.url.getD "" ∉ existing := by
  unfold _filter_new_news_items at hx
  obtain ⟨hmem, hp⟩ := List.mem_filter.mp hx
  obtain ⟨hitems, u, hu, hne, -⟩ := mem_dedupByUrl hmem
  refine ⟨hitems, ⟨u, hu, hne⟩, ?_⟩
  simpa using hp

lemma dedup_cover :
    ∀ (items : List FetchedItem) (seen : List String) (x : FetchedItem)
      (u : String), x ∈ items → x.url = some u → u ≠ "" →
    u ∈ seen ∨ ∃ y ∈ dedupByUrl seen items, y.url = some u := by
  intro items
  induction items with
  | nil => intro seen x u h; simp at h
  | cons item rest ih =>
    intro seen x u hx hu hne
    rcases List.mem_cons.mp hx with rfl | hx'
    · rw [dedupByUrl_cons_some seen rest hu]
      by_cases hv : u = "" ∨ u ∈ seen
      · rcases hv with hv | hv
        · exact absurd hv hne
        · exact Or.inl hv
      · rw [if_neg hv]
        exact Or.inr ⟨x, List.mem_cons_self _ _, hu⟩
    · cases hiu : item.url with
      | none =>
        rw [dedupByUrl_cons_none seen rest hiu]
        exact ih seen x u hx' hu hne
      | some v =>
        rw [dedupByUrl_cons_some seen rest hiu]
        by_cases hv : v = "" ∨ v ∈ seen
        · rw [if_pos hv]
          exact ih seen x u hx' hu hne
        · rw [if_neg hv]
          rcases ih (v :: seen) x u hx' hu hne with hs | ⟨y, hy, hyu⟩
          · rcases List.mem_cons.mp hs with rfl | hs'
            · exact Or.inr ⟨item, List.mem_cons_self _ _, hiu⟩
            · exact Or.inl hs'
          · exact Or.inr ⟨y, List.mem_cons_of_mem _ hy, hyu⟩

lemma filter_new_cover (existing : List String) (items : List FetchedItem)
    (x : FetchedItem) (u : String) (hx : x ∈ items) (hu : x.url = some u)
    (hne : u ≠ "") :
    u ∈ existing
      ∨ u ∈ (_filter_new_news_items existing items).map
          (fun it => it.url.getD "") := by
  rcases dedup_cover items [] x u hx hu hne with hs | ⟨y, hy, hyu⟩
  · simp at hs
  · by_cases he : u ∈ existing
    · exact Or.inl he
    · right
      refine List.mem_map.mpr ⟨y, ?_, by rw [hyu]; rfl⟩
      unfold _filter_new_news_items
      refine List.mem_filter.mpr ⟨hy, ?_⟩
      simp [hyu, he]

lemma filter_new_eq_nil (existing : List String) (items : List FetchedItem)
    (h : ∀ x ∈ items, ∀ u, x.url = some u → u ≠ "" → u ∈ existing) :
    _filter_new_news_items existing items = [] := by
  unfold _filter_new_news_items
  rw [List.filter_eq_nil_iff]
  intro y hy
  obtain ⟨hitems, u, hu, hne, -⟩ := mem_dedupByUrl hy
  have := h y hitems u hu hne
  simp [hu, this]


/-! ### Lemmas about the relevance score -/

/-- The per-role keywords found in the lowercased title or summary (the
spec's "matched role-specific keywords"). -/
def matchedKeywords (news_item : FetchedItem) (position : String) : List String :=
  (position_keywords position).filter
    (fun keyword => strContains (pyLower news_item.title) keyword
      || strContains (pyLower news_item.summary) keyword)

/-- The spec's recency adjustment: +0.2 when the item is at most one day
old, else +0.1 when at most three days old. -/
def recencyBonus (news_item : FetchedItem) (now : Int) : ℚ :=
  if Int.fdiv (now - news_item.published_at) 86400 ≤ 1 then 1/5
  else if Int.fdiv (now - news_item.published_at) 86400 ≤ 3 then 1/10
  else 0

/-- The relevance formula exactly as the spec words it: a base of 0.5, plus
0.1 per matched role-specific keyword, plus the recency adjustment, clamped
to [0, 1].  Stated with Mathlib's `min`/`max` for comparison against the
source-derived `calculate_relevance_score`. -/
def relevance_score_spec (news_item : FetchedItem) (position : String)
    (now : Int) : ℚ :=
  min 1 (max 0 (1/2 + ((matchedKeywords news_item position).length : ℚ) * (1/10)
    + recencyBonus news_item now))

lemma pyMax_eq_max (a b : ℚ) : pyMax a b = max a b := by
  simp [pyMax, max_def]

lemma pyMin_eq_min (a b : ℚ) : pyMin a b = min a b := by
  simp [pyMin, min_def]

lemma foldl_keyword_count (p : String → Bool) (l : List String) (init : ℚ) :
    l.foldl (fun s keyword => if p keyword then s + 1/10 else s) init
      = init + ((l.filter p).length : ℚ) * (1/10) := by
  induction l generalizing init with
  | nil => simp
  | cons a l ih =>
    by_cases h : p a
    · simp only [List.foldl_cons, List.filter_cons, h, if_true, ih,
        List.length_cons]
      push_cast
      ring
    · simp only [List.foldl_cons, List.filter_cons, h, if_false, ih,
        Bool.false_eq_true]

lemma calculate_relevance_score_eq_spec (news_item : FetchedItem)
    (question : String) (category : NewsCategory) (position : String)
    (now : Int) :
    calculate_relevance_score news_item question category position now
      = relevance_score_spec news_item position now := by
  unfold calculate_relevance_score relevance_score_spec matchedKeywords
    recencyBonus
  simp only [foldl_keyword_count, pyMin_eq_min, pyMax_eq_max]
  split_ifs <;> ring_nf

lemma recencyBonus_nonneg (news_item : FetchedItem) (now : Int) :
    0 ≤ recencyBonus news_item now := by
  unfold recencyBonus
  split_ifs <;> norm_num

lemma relevance_score_spec_half_le (news_item : FetchedItem)
    (position : String) (now : Int) :
    1/2 ≤ relevance_score_spec news_item position now := by
  unfold relevance_score_spec
  have hc : (0:ℚ) ≤ ((matchedKeywords news_item position).length : ℚ) * (1/10) :=
    mul_nonneg (Nat.cast_nonneg _) (by norm_num)
  have hb := recencyBonus_nonneg news_item now
  have hs : (1:ℚ)/2 ≤ 1/2 + ((matchedKeywords news_item position).length : ℚ) * (1/10)
      + recencyBonus news_item now := by linarith
  exact le_min (by norm_num) (le_trans hs (le_max_right _ _))

/-- C2 (claim theorem): the relevance score equals the spec's formula —
base 0.5, +0.1 per matched role-specific keyword found in the lowercased
title or summary, +0.2 if at most 1 day old else +0.1 if at most 3 days
old, clamped to [0, 1] — and the returned value always lies in [0, 1],
for every item, question text, category, position and clock value. -/
theorem claim_C2 (news_item : FetchedItem) (question : String)
    (category : NewsCategory) (position : String) (now : Int) :
    calculate_relevance_score news_item question category position now
        = relevance_score_spec news_item position now
      ∧ 0 ≤ calculate_relevance_score news_item question category position now
      ∧ calculate_relevance_score news_item question category position now ≤ 1 := by
  have h := calculate_relevance_score_eq_spec news_item question category position now
  refine ⟨h, ?_, ?_⟩
  · rw [h]
    unfold relevance_score_spec
    exact le_min (by norm_num) (le_max_left _ _)
  · rw [h]
    unfold relevance_score_spec
    exact min_le_left _ _

lemma generate_some_score (news_item : FetchedItem) (position : String)
    (category : NewsCategory) (resp : Except Unit String) (now : Int)
    (gq : GeneratedQuestion) (reasoning : String) (score : ℚ)
    (h : generate_question_from_news news_item position category resp now
      = (some gq, reasoning, score)) :
    gq.position = position
      ∧ score = calculate_relevance_score news_item gq.content category position now := by
  unfold generate_question_from_news at h
  split at h
  · exact absurd h (by simp)
  · split at h
    · exact absurd h (by simp)
    · simp only [Prod.mk.injEq, Option.some.injEq] at h
      obtain ⟨hq, -, hs⟩ := h
      subst hq
      exact ⟨rfl, hs.symm⟩

/-- C10 (claim theorem): the relevance score is always at least 0.5 (every
adjustment before the clamp is a non-negative addition to the 0.5 base), so
whenever `generate_question_from_news` returns an actual question, its score
strictly exceeds the 0.3 acceptance threshold, and the lower clamp to 0 is
never the binding bound. -/
theorem claim_C10 :
    (∀ (news_item : FetchedItem) (question : String) (category : NewsCategory)
        (position : String) (now : Int),
        1/2 ≤ calculate_relevance_score news_item question category position now)
    ∧ (∀ (news_item : FetchedItem) (position : String) (category : NewsCategory)
        (resp : Except Unit String) (now : Int) (gq : GeneratedQuestion)
        (reasoning : String) (score : ℚ),
        generate_question_from_news news_item position category resp now
            = (some gq, reasoning, score)
          → 3/10 < score) := by
  constructor
  · intro news_item question category position now
    rw [calculate_relevance_score_eq_spec]
    exact relevance_score_spec_half_le news_item position now
  · intro news_item position category resp now gq reasoning score h
    obtain ⟨-, hs⟩ := generate_some_score news_item position category resp now
      gq reasoning score h
    have := relevance_score_spec_half_le news_item position now
    rw [← calculate_relevance_score_eq_spec news_item gq.content category
      position now] at this
    rw [hs]
    linarith

end MockMate

namespace MockMate

/-! ### Anatomy of a per-source run -/

/-- The deduplicated batch of a per-source run against `store`. -/
def runFresh (store : Store) (fetched : List FetchedItem) : List FetchedItem :=
  _filter_new_news_items (store.news_items.map (fun n => n.url)) fetched

/-- The id of the source row used by a per-source run. -/
def runSourceId (store : Store) (category : NewsCategory)
    (cfg : SourceConfig) : Nat :=
  (_get_or_create_source store category cfg).2.id

/-- The fresh-id counter after the source lookup/creation. -/
def runBaseId (store : Store) (category : NewsCategory)
    (cfg : SourceConfig) : Nat :=
  (_get_or_create_source store category cfg).1.next_id

/-- The NewsItem rows inserted by a per-source run, before the
processed-flag update. -/
def runNewsModels (store : Store) (category : NewsCategory)
    (cfg : SourceConfig) (fetched : List FetchedItem) : List NewsItemRow :=
  (List.range (runFresh store fetched).length).map
    (fun i => _build_news_model (runSourceId store category cfg)
      (runBaseId store category cfg + i)
      ((runFresh store fetched).getD i default) category)

/-- The accepted generation results of a per-source run. -/
def runResults (store : Store) (fetched : List FetchedItem)
    (positions : List String) (category : NewsCategory)
    (oracle : Nat → String → GenOutcome) (now : Int) :
    List GeneratedNewsQuestionResult :=
  _generate_questions_for_news_items (runFresh store fetched) positions
    category oracle now

/-- The Question rows inserted by a per-source run. -/
def runQuestionModels (store : Store) (category : NewsCategory)
    (cfg : SourceConfig) (fetched : List FetchedItem)
    (positions : List String) (oracle : Nat → String → GenOutcome)
    (now : Int) : List QuestionRow :=
  (List.range (runResults store fetched positions category oracle now).length).map
    (fun k =>
      let r := (runResults store fetched positions category oracle now).getD k default
      QuestionRow.mk
        (runBaseId store category cfg + (runFresh store fetched).length + k)
        r.question_data.content r.question_data.position
        r.question_data.difficulty r.question_data.question_type.val
        r.question_data.expected_keywords)

/-- The NewsBasedQuestion rows inserted by a per-source run. -/
def runNewsBasedModels (store : Store) (category : NewsCategory)
    (cfg : SourceConfig) (fetched : List FetchedItem)
    (positions : List String) (oracle : Nat → String → GenOutcome)
    (now : Int) : List NewsBasedQuestionRow :=
  (List.range (runResults store fetched positions category oracle now).length).map
    (fun k =>
      let r := (runResults store fetched positions category oracle now).getD k default
      NewsBasedQuestionRow.mk
        (runBaseId store category cfg + (runFresh store fetched).length
          + (runResults store fetched positions category oracle now).length + k)
        ((runNewsModels store category cfg fetched).getD r.news_index default).id
        (runBaseId store category cfg + (runFresh store fetched).length + k)
        r.relevance_score r.question_data.question_type.val r.ai_reasoning)

lemma gcs_news_items (store : Store) (category : NewsCategory)
    (cfg : SourceConfig) :
    (_get_or_create_source store category cfg).1.news_items
      = store.news_items := by
  unfold _get_or_create_source
  split <;> rfl

lemma gcs_questions (store : Store) (category : NewsCategory)
    (cfg : SourceConfig) :
    (_get_or_create_source store category cfg).1.questions
      = store.questions := by
  unfold _get_or_create_source
  split <;> rfl

lemma gcs_news_based (store : Store) (category : NewsCategory)
    (cfg : SourceConfig) :
    (_get_or_create_source store category cfg).1.news_based
      = store.news_based := by
  unfold _get_or_create_source
  split <;> rfl

lemma stampSource_news_items (store : Store) (sid : Nat) (now : Int) :
    (stampSource store sid now).news_items = store.news_items := rfl

lemma stampSource_questions (store : Store) (sid : Nat) (now : Int) :
    (stampSource store sid now).questions = store.questions := rfl

lemma stampSource_news_based (store : Store) (sid : Nat) (now : Int) :
    (stampSource store sid now).news_based = store.news_based := rfl

/-- Early-return branch of `_process_source_config` (trending.py:408–417):
when the fetch or the dedup yields nothing, the run only stamps the source's
`last_fetched` and returns 0, regardless of the generation oracle. -/
lemma process_source_early (store : Store) (category : NewsCategory)
    (cfg : SourceConfig) (fetched : List FetchedItem)
    (positions : List String) (oracle : Nat → String → GenOutcome)
    (now : Int) (h : fetched = [] ∨ runFresh store fetched = []) :
    _process_source_config store category cfg fetched positions oracle now
      = (stampSource (_get_or_create_source store category cfg).1
          (runSourceId store category cfg) now, 0) := by
  unfold _process_source_config runSourceId
  by_cases hf : fetched.isEmpty
  · simp [hf]
  · have hfr : runFresh store fetched = [] := by
      rcases h with h | h
      · exact absurd (by simp [h] : fetched.isEmpty = true) hf
      · exact h
    rw [Bool.not_eq_true] at hf
    simp only [hf, Bool.false_eq_true, if_false]
    have : _filter_new_news_items
        ((_get_or_create_source store category cfg).1.news_items.map
          (fun n => n.url)) fetched = [] := by
      rw [gcs_news_items]
      exact hfr
    simp [this]

/-- Main branch of `_process_source_config` (trending.py:419–465), written
out over the run anatomy above. -/
lemma process_source_main (store : Store) (category : NewsCategory)
    (cfg : SourceConfig) (fetched : List FetchedItem)
    (positions : List String) (oracle : Nat → String → GenOutcome)
    (now : Int) (hf : fetched ≠ []) (hfr : runFresh store fetched ≠ []) :
    _process_source_config store category cfg fetched positions oracle now
      = (stampSource
          { (_get_or_create_source store category cfg).1 with
              news_items := store.news_items
                ++ (runNewsModels store category cfg fetched).map
                    (fun n => { n with is_processed := true }),
              questions := store.questions
                ++ runQuestionModels store category cfg fetched positions oracle now,
              news_based := store.news_based
                ++ runNewsBasedModels store category cfg fetched positions oracle now,
              next_id := runBaseId store category cfg
                + (runFresh store fetched).length
                + (runResults store fetched positions category oracle now).length
                + (runResults store fetched positions category oracle now).length }
          (runSourceId store category cfg) now,
        (runResults store fetched positions category oracle now).length) := by
  unfold _process_source_config
  have hf' : fetched.isEmpty = false := by
    cases fetched with
    | nil => exact absurd rfl hf
    | cons a l => rfl
  have hflt : _filter_new_news_items
      ((_get_or_create_source store category cfg).1.news_items.map
        (fun n => n.url)) fetched = runFresh store fetched := by
    rw [gcs_news_items]; rfl
  have hfr' : (runFresh store fetched).isEmpty = false := by
    cases hh : runFresh store fetched with
    | nil => exact absurd hh hfr
    | cons a l => rfl
  simp only [hf', Bool.false_eq_true, if_false, hflt, hfr']
  simp only [runNewsModels, runQuestionModels, runNewsBasedModels, runResults,
    runBaseId, runSourceId, gcs_news_items, gcs_questions, gcs_news_based,
    List.length_map, List.length_range]

end MockMate

namespace MockMate

/-! ### List index helpers -/

lemma map_range_getD {α β : Type} [Inhabited α] (l : List α) (g : α → β) :
    (List.range l.length).map (fun i => g (l.getD i default)) = l.map g := by
  induction l with
  | nil => simp
  | cons a l ih =>
    rw [List.length_cons, List.range_succ_eq_map, List.map_cons, List.map_map]
    have h1 : ((fun i => g ((a :: l).getD i default)) ∘ Nat.succ)
        = (fun i => g (l.getD i default)) := by
      funext i
      simp [List.getD_cons_succ]
    rw [h1, ih, List.getD_cons_zero, List.map_cons]

lemma getD_map_range {β : Type} [Inhabited β] (n : Nat) (f : Nat → β) (j : Nat)
    (h : j < n) : ((List.range n).map f).getD j default = f j := by
  induction n generalizing f j with
  | zero => omega
  | succ n ih =>
    rw [List.range_succ_eq_map, List.map_cons, List.map_map]
    cases j with
    | zero => rfl
    | succ j =>
      rw [List.getD_cons_succ]
      exact ih (f ∘ Nat.succ) j (by omega)

lemma mem_map_range {β : Type} (n : Nat) (f : Nat → β) (k : Nat) (h : k < n) :
    f k ∈ (List.range n).map f :=
  List.mem_map.mpr ⟨k, List.mem_range.mpr h, rfl⟩

lemma getD_mem {α : Type} [Inhabited α] (l : List α) (k : Nat)
    (h : k < l.length) : l.getD k default ∈ l := by
  rw [List.getD_eq_getElem l default h]
  exact List.getElem_mem h

/-! ### Lemmas about the generation fan-out -/

lemma generate_some_position (news_item : FetchedItem) (position : String)
    (category : NewsCategory) (resp : Except Unit String) (now : Int)
    (gq : GeneratedQuestion) (reasoning : String) (score : ℚ)
    (h : generate_question_from_news news_item position category resp now
      = (some gq, reasoning, score)) : gq.position = position := by
  unfold generate_question_from_news at h
  split at h
  · exact absurd h (by simp)
  · split at h
    · exact absurd h (by simp)
    · simp only [Prod.mk.injEq, Option.some.injEq] at h
      obtain ⟨hq, -, -⟩ := h
      rw [← hq]

lemma pairOutcome_shape (news_items : List FetchedItem)
    (category : NewsCategory) (oracle : Nat → String → GenOutcome)
    (now : Int) (ip : Nat × String) (r : GeneratedNewsQuestionResult)
    (h : pairOutcome news_items category oracle now ip = some r) :
    r.news_index = ip.1 ∧ r.question_data.position = ip.2
      ∧ 3/10 < r.relevance_score := by
  unfold pairOutcome at h
  split at h
  · exact absurd h (by simp)
  · rename_i resp
    split at h
    · exact absurd h (by simp)
    · rename_i question_data ai_reasoning relevance_score heq
      split at h
      · rename_i hscore
        simp only [Option.some.injEq] at h
        subst h
        refine ⟨rfl, ?_, hscore⟩
        exact generate_some_position _ _ _ _ _ _ _ _ heq
      · exact absurd h (by simp)

lemma mem_generate_results (news_items : List FetchedItem)
    (positions : List String) (category : NewsCategory)
    (oracle : Nat → String → GenOutcome) (now : Int)
    (r : GeneratedNewsQuestionResult)
    (h : r ∈ _generate_questions_for_news_items news_items positions category
      oracle now) :
    r.news_index < news_items.length ∧ 3/10 < r.relevance_score := by
  unfold _generate_questions_for_news_items at h
  split at h
  · simp at h
  · rename_i hne
    obtain ⟨ip, hip, hpo⟩ := List.mem_filterMap.mp h
    obtain ⟨h1, -, h3⟩ := pairOutcome_shape _ _ _ _ _ _ hpo
    obtain ⟨i, hi, hmap⟩ := List.mem_flatMap.mp hip
    obtain ⟨p, -, hip2⟩ := List.mem_map.mp hmap
    refine ⟨?_, h3⟩
    rw [h1, ← hip2]
    exact List.mem_range.mp hi

end MockMate

namespace MockMate

/-! ### Concrete fixtures used by the witnesses -/

/-- An empty store. -/
def emptyStore : Store := ⟨[], [], [], [], 0⟩

/-- A sample source configuration. -/
def sampleCfg : SourceConfig := ⟨"n", "u", .RSS⟩

/-- A sample fetched item with a long enough title. -/
def sampleItem : FetchedItem :=
  ⟨"Kubernetes 1.30 released", "", some "https://x", 0, ""⟩

/-- A generation oracle that succeeds for "frontend" and escapes with a
`BaseException` for every other position. -/
def sampleOracle : Nat → String → GenOutcome := fun _ p =>
  if p = "frontend" then
    .ret (.ok "QUESTION: What do you think about it?\nREASONING: topical")
  else .escape

/-! ### C7: short titles -/

/-- C7 (claim theorem): for every news item whose title is missing
(modelled as the empty string) or shorter than 10 characters,
`generate_question_from_news` returns no question, an empty reasoning and
score 0.0, and this holds for every possible model response `resp` — the
guard precedes the model call, so no call is made. -/
theorem claim_C7 (news_item : FetchedItem) (position : String)
    (category : NewsCategory) (resp : Except Unit String) (now : Int)
    (h : news_item.title.length < 10) :
    generate_question_from_news news_item position category resp now
      = (none, "", 0) := by
  unfold generate_question_from_news
  rw [if_pos (Or.inr h)]

/-- C7 witness: the 2-character title "AI" yields `(None, "", 0.0)` even
when a model response is available. -/
theorem claim_C7_witness :
    generate_question_from_news ⟨"AI", "", some "u", 0, ""⟩ "backend"
      NewsCategory.AI (Except.ok "QUESTION: ignored") 0 = (none, "", 0) :=
  claim_C7 ⟨"AI", "", some "u", 0, ""⟩ "backend" NewsCategory.AI
    (Except.ok "QUESTION: ignored") 0 (by decide)

/-! ### C8: zero-item runs -/

/-- C8 (claim theorem): when the fetch or the dedup yields zero items, the
per-source run returns 0, only stamps the source's `last_fetched` (looking
the source up or creating it first), leaves the NewsItem / Question /
NewsBasedQuestion tables unchanged, and is independent of the generation
oracle and positions (no generation call can influence it). -/
theorem claim_C8 (store : Store) (category : NewsCategory)
    (cfg : SourceConfig) (fetched : List FetchedItem)
    (positions positions' : List String)
    (oracle oracle' : Nat → String → GenOutcome) (now : Int)
    (h : fetched = [] ∨ runFresh store fetched = []) :
    (_process_source_config store category cfg fetched positions oracle now).2 = 0
    ∧ (_process_source_config store category cfg fetched positions oracle now).1
        = stampSource (_get_or_create_source store category cfg).1
            (runSourceId store category cfg) now
    ∧ (_process_source_config store category cfg fetched positions oracle now).1.news_items
        = store.news_items
    ∧ (_process_source_config store category cfg fetched positions oracle now).1.questions
        = store.questions
    ∧ (_process_source_config store category cfg fetched positions oracle now).1.news_based
        = store.news_based
    ∧ _process_source_config store category cfg fetched positions oracle now
        = _process_source_config store category cfg fetched positions' oracle' now := by
  have h1 := process_source_early store category cfg fetched positions oracle now h
  have h2 := process_source_early store category cfg fetched positions' oracle' now h
  refine ⟨by rw [h1], by rw [h1], ?_, ?_, ?_, by rw [h1, h2]⟩
  · rw [h1, stampSource_news_items, gcs_news_items]
  · rw [h1, stampSource_questions, gcs_questions]
  · rw [h1, stampSource_news_based, gcs_news_based]

/-- C8 witness: an empty fetch against the empty store creates nothing and
returns 0. -/
theorem claim_C8_witness :
    (_process_source_config emptyStore NewsCategory.AI sampleCfg []
      ["backend"] sampleOracle 0).2 = 0 :=
  (claim_C8 emptyStore NewsCategory.AI sampleCfg [] ["backend"] ["backend"]
    sampleOracle sampleOracle 0 (Or.inl rfl)).1

/-! ### C9: referential integrity -/

/-- Referential integrity: every NewsBasedQuestion row references an
existing NewsItem row and an existing Question row.  Because the per-source
run commits exactly once (trending.py:463), with the NewsItem and Question
rows flushed — hence id-assigned — before any NewsBasedQuestion row is
constructed, this is the committed-state reading of the claim. -/
def Store.integrity (s : Store) : Prop :=
  ∀ nb ∈ s.news_based,
    (∃ n ∈ s.news_items, n.id = nb.news_item_id)
    ∧ (∃ q ∈ s.questions, q.id = nb.question_id)

/-- C9 (claim theorem): a per-source run preserves referential integrity:
in the committed store, every NewsBasedQuestion — including each one the
run creates — references a NewsItem row and a Question row that are part of
the same committed state. -/
theorem claim_C9 (store : Store) (category : NewsCategory)
    (cfg : SourceConfig) (fetched : List FetchedItem)
    (positions : List String) (oracle : Nat → String → GenOutcome)
    (now : Int) (hint : store.integrity) :
    ((_process_source_config store category cfg fetched positions oracle
      now).1).integrity := by
  by_cases hempty : fetched = [] ∨ runFresh store fetched = []
  · rw [process_source_early store category cfg fetched positions oracle now hempty]
    intro nb hnb
    rw [stampSource_news_based, gcs_news_based] at hnb
    obtain ⟨⟨n, hn, hn2⟩, ⟨q, hq, hq2⟩⟩ := hint nb hnb
    constructor
    · exact ⟨n, by rwa [stampSource_news_items, gcs_news_items], hn2⟩
    · exact ⟨q, by rwa [stampSource_questions, gcs_questions], hq2⟩
  · push_neg at hempty
    rw [process_source_main store category cfg fetched positions oracle now
      hempty.1 hempty.2]
    intro nb hnb
    rw [stampSource_news_based] at hnb
    simp only [stampSource_news_items, stampSource_questions] at *
    rcases List.mem_append.mp hnb with hold | hnew
    · obtain ⟨⟨n, hn, hn2⟩, ⟨q, hq, hq2⟩⟩ := hint nb hold
      exact ⟨⟨n, List.mem_append_left _ hn, hn2⟩,
        ⟨q, List.mem_append_left _ hq, hq2⟩⟩
    · unfold runNewsBasedModels at hnew
      obtain ⟨k, hk, hkeq⟩ := List.mem_map.mp hnew
      rw [List.mem_range] at hk
      constructor
      · -- the referenced NewsItem row
        refine ⟨{ (runNewsModels store category cfg fetched).getD
            ((runResults store fetched positions category oracle now).getD k
              default).news_index default with is_processed := true },
          List.mem_append_right _ ?_, ?_⟩
        · apply List.mem_map.mpr
          refine ⟨(runNewsModels store category cfg fetched).getD
            ((runResults store fetched positions category oracle now).getD k
              default).news_index default, ?_, rfl⟩
          apply getD_mem
          have hr : (runResults store fetched positions category oracle now).getD
              k default ∈ runResults store fetched positions category oracle now :=
            getD_mem _ k hk
          have hidx := (mem_generate_results _ _ _ _ _ _ hr).1
          unfold runNewsModels
          rw [List.length_map, List.length_range]
          exact hidx
        · rw [← hkeq]
      · -- the referenced Question row
        refine ⟨QuestionRow.mk
            (runBaseId store category cfg + (runFresh store fetched).length + k)
            ((runResults store fetched positions category oracle now).getD k
              default).question_data.content
            ((runResults store fetched positions category oracle now).getD k
              default).question_data.position
            ((runResults store fetched positions category oracle now).getD k
              default).question_data.difficulty
            ((runResults store fetched positions category oracle now).getD k
              default).question_data.question_type.val
            ((runResults store fetched positions category oracle now).getD k
              default).question_data.expected_keywords,
          List.mem_append_right _ ?_, ?_⟩
        · unfold runQuestionModels
          exact mem_map_range _ _ k hk
        · rw [← hkeq]

/-- C9 witness: integrity of the store produced by a concrete run from the
empty store. -/
theorem claim_C9_witness :
    ((_process_source_config emptyStore NewsCategory.AI sampleCfg
      [sampleItem] ["backend", "frontend"] sampleOracle 0).1).integrity :=
  claim_C9 emptyStore NewsCategory.AI sampleCfg [sampleItem]
    ["backend", "frontend"] sampleOracle 0
    (by intro nb hnb; simp [emptyStore] at hnb)

end MockMate

namespace MockMate

lemma runFresh_nil (store : Store) : runFresh store [] = [] := rfl

/-- C5 (claim theorem): after a per-source run, (i) exactly one NewsItem
row is appended per item that survived deduplication, (ii) the pre-existing
rows are untouched, and (iii) each appended row carries the URL of its
surviving item and has `is_processed = true` — even when zero questions
were accepted (the statement does not constrain the oracle). -/
theorem claim_C5 (store : Store) (category : NewsCategory)
    (cfg : SourceConfig) (fetched : List FetchedItem)
    (positions : List String) (oracle : Nat → String → GenOutcome)
    (now : Int) :
    ((_process_source_config store category cfg fetched positions oracle
        now).1.news_items.length
      = store.news_items.length + (runFresh store fetched).length)
    ∧ ((_process_source_config store category cfg fetched positions oracle
        now).1.news_items.take store.news_items.length = store.news_items)
    ∧ (∀ j, j < (runFresh store fetched).length →
        (((_process_source_config store category cfg fetched positions oracle
            now).1.news_items.getD (store.news_items.length + j)
            default).is_processed = true
        ∧ ((_process_source_config store category cfg fetched positions oracle
            now).1.news_items.getD (store.news_items.length + j) default).url
          = ((runFresh store fetched).getD j default).url.getD "")) := by
  by_cases hempty : fetched = [] ∨ runFresh store fetched = []
  · have hfr : runFresh store fetched = [] := by
      rcases hempty with h | h
      · rw [h, runFresh_nil]
      · exact h
    rw [process_source_early store category cfg fetched positions oracle now hempty]
    rw [stampSource_news_items, gcs_news_items, hfr]
    refine ⟨by simp, by simp [List.take_length], ?_⟩
    intro j hj
    simp at hj
  · push_neg at hempty
    rw [process_source_main store category cfg fetched positions oracle now
      hempty.1 hempty.2]
    rw [stampSource_news_items]
    have hlen : ((runNewsModels store category cfg fetched).map
        (fun n => { n with is_processed := true })).length
        = (runFresh store fetched).length := by
      unfold runNewsModels
      rw [List.length_map, List.length_map, List.length_range]
    refine ⟨?_, ?_, ?_⟩
    · rw [List.length_append, hlen]
    · rw [List.take_left]
    · intro j hj
      rw [List.getD_append_right _ _ _ _ (by omega)]
      have hsub : store.news_items.length + j - store.news_items.length = j := by
        omega
      rw [hsub]
      unfold runNewsModels
      rw [List.map_map]
      have hfun : ((fun n => { n with is_processed := true })
            ∘ (fun i => _build_news_model (runSourceId store category cfg)
              (runBaseId store category cfg + i)
              ((runFresh store fetched).getD i default) category))
          = (fun i => { _build_news_model (runSourceId store category cfg)
              (runBaseId store category cfg + i)
              ((runFresh store fetched).getD i default) category
              with is_processed := true }) := by
        funext i; rfl
      rw [hfun, getD_map_range _ _ j hj]
      exact ⟨rfl, rfl⟩

/-- C5 witness: a concrete run over one fresh item marks its single new row
processed and stores its URL. -/
theorem claim_C5_witness :
    (((_process_source_config emptyStore NewsCategory.AI sampleCfg
        [sampleItem] ["backend", "frontend"] sampleOracle 0).1.news_items.getD
        0 default).is_processed = true)
    ∧ (((_process_source_config emptyStore NewsCategory.AI sampleCfg
        [sampleItem] ["backend", "frontend"] sampleOracle 0).1.news_items.getD
        0 default).url
      = ((runFresh emptyStore [sampleItem]).getD 0 default).url.getD "") :=
  (claim_C5 emptyStore NewsCategory.AI sampleCfg [sampleItem]
    ["backend", "frontend"] sampleOracle 0).2.2 0 (by decide)

/-- C3 (claim theorem): a (Question, NewsBasedQuestion) pair is persisted
only for generation results whose question is present and whose relevance
score strictly exceeds 0.3: every accepted generation result scores above
0.3, and every NewsBasedQuestion row after a run is either pre-existing or
carries a score above 0.3 — so a result scoring 0.3 or less never produces
a row. -/
theorem claim_C3 (store : Store) (category : NewsCategory)
    (cfg : SourceConfig) (fetched : List FetchedItem)
    (news_items : List FetchedItem) (positions : List String)
    (oracle : Nat → String → GenOutcome) (now : Int) :
    (∀ r ∈ _generate_questions_for_news_items news_items positions category
        oracle now, 3/10 < r.relevance_score)
    ∧ (∀ nb ∈ (_process_source_config store category cfg fetched positions
        oracle now).1.news_based,
        nb ∈ store.news_based ∨ 3/10 < nb.relevance_score) := by
  constructor
  · intro r hr
    exact (mem_generate_results _ _ _ _ _ _ hr).2
  · intro nb hnb
    by_cases hempty : fetched = [] ∨ runFresh store fetched = []
    · rw [process_source_early store category cfg fetched positions oracle now
        hempty, stampSource_news_based, gcs_news_based] at hnb
      exact Or.inl hnb
    · push_neg at hempty
      rw [process_source_main store category cfg fetched positions oracle now
        hempty.1 hempty.2, stampSource_news_based] at hnb
      rcases List.mem_append.mp hnb with hold | hnew
      · exact Or.inl hold
      · right
        unfold runNewsBasedModels at hnew
        obtain ⟨k, hk, hkeq⟩ := List.mem_map.mp hnew
        rw [List.mem_range] at hk
        have hr : (runResults store fetched positions category oracle now).getD
            k default ∈ runResults store fetched positions category oracle now :=
          getD_mem _ k hk
        have := (mem_generate_results _ _ _ _ _ _ hr).2
        rw [← hkeq]
        exact this

/-- C3 witness: the single NewsBasedQuestion row created by a concrete run
carries a score above 0.3. -/
theorem claim_C3_witness :
    NewsBasedQuestionRow.mk 3 1 2 (7/10) "opinion" "topical"
        ∈ emptyStore.news_based
    ∨ (3:ℚ)/10 < (NewsBasedQuestionRow.mk 3 1 2 (7/10) "opinion"
        "topical").relevance_score :=
  (claim_C3 emptyStore NewsCategory.AI sampleCfg [sampleItem] [sampleItem]
    ["backend", "frontend"] sampleOracle 0).2
    (NewsBasedQuestionRow.mk 3 1 2 (7/10) "opinion" "topical") (by decide)

end MockMate

namespace MockMate

lemma run_news_items_early (store : Store) (category : NewsCategory)
    (cfg : SourceConfig) (fetched : List FetchedItem)
    (positions : List String) (oracle : Nat → String → GenOutcome)
    (now : Int) (h : fetched = [] ∨ runFresh store fetched = []) :
    (_process_source_config store category cfg fetched positions oracle
      now).1.news_items = store.news_items := by
  rw [process_source_early store category cfg fetched positions oracle now h,
    stampSource_news_items, gcs_news_items]

lemma run_news_items_urls (store : Store) (category : NewsCategory)
    (cfg : SourceConfig) (fetched : List FetchedItem)
    (positions : List String) (oracle : Nat → String → GenOutcome)
    (now : Int) (hf : fetched ≠ []) (hfr : runFresh store fetched ≠ []) :
    (_process_source_config store category cfg fetched positions oracle
        now).1.news_items.map (fun n => n.url)
      = store.news_items.map (fun n => n.url)
        ++ (runFresh store fetched).map (fun it => it.url.getD "") := by
  rw [process_source_main store category cfg fetched positions oracle now hf hfr,
    stampSource_news_items, List.map_append]
  congr 1
  unfold runNewsModels
  rw [List.map_map, List.map_map]
  exact map_range_getD (runFresh store fetched) (fun it => it.url.getD "")

lemma run_cover (store : Store) (category : NewsCategory)
    (cfg : SourceConfig) (fetched : List FetchedItem)
    (positions : List String) (oracle : Nat → String → GenOutcome)
    (now : Int) (x : FetchedItem) (u : String) (hx : x ∈ fetched)
    (hu : x.url = some u) (hne : u ≠ "") :
    u ∈ (_process_source_config store category cfg fetched positions oracle
      now).1.news_items.map (fun n => n.url) := by
  by_cases hempty : fetched = [] ∨ runFresh store fetched = []
  · rw [run_news_items_early store category cfg fetched positions oracle now
      hempty]
    rcases filter_new_cover (store.news_items.map (fun n => n.url)) fetched
      x u hx hu hne with hl | hr
    · exact hl
    · have hfr : runFresh store fetched = [] := by
        rcases hempty with h | h
        · rw [h, runFresh_nil]
        · exact h
      rw [show _filter_new_news_items (store.news_items.map (fun n => n.url))
          fetched = runFresh store fetched from rfl, hfr] at hr
      simp at hr
  · push_neg at hempty
    rw [run_news_items_urls store category cfg fetched positions oracle now
      hempty.1 hempty.2]
    rcases filter_new_cover (store.news_items.map (fun n => n.url)) fetched
      x u hx hu hne with hl | hr
    · exact List.mem_append_left _ hl
    · exact List.mem_append_right _ hr

/-- C1 (claim theorem): (i) the deduplication filter returns exactly the
items whose URL is present, not the URL of an earlier item of the same
list, and not already persisted (`selectedItems` spells out that wording);
(ii) consequently a per-source run preserves the no-two-NewsItem-rows-share
-a-URL invariant; and (iii) running the per-source ingestion a second time
with identical fetch results creates zero new NewsItem rows (whatever the
second run's positions, oracle or clock are). -/
theorem claim_C1 (store : Store) (category : NewsCategory)
    (cfg : SourceConfig) (fetched : List FetchedItem)
    (positions positions' : List String)
    (oracle oracle' : Nat → String → GenOutcome) (now now' : Int)
    (hnodup : (store.news_items.map (fun n => n.url)).Nodup) :
    _filter_new_news_items (store.news_items.map (fun n => n.url)) fetched
        = selectedItems (store.news_items.map (fun n => n.url)) fetched
    ∧ (((_process_source_config store category cfg fetched positions oracle
        now).1).news_items.map (fun n => n.url)).Nodup
    ∧ (_process_source_config
          (_process_source_config store category cfg fetched positions oracle
            now).1
          category cfg fetched positions' oracle' now').1.news_items
        = (_process_source_config store category cfg fetched positions oracle
            now).1.news_items := by
  refine ⟨filter_new_eq_selected _ _, ?_, ?_⟩
  · by_cases hempty : fetched = [] ∨ runFresh store fetched = []
    · rw [run_news_items_early store category cfg fetched positions oracle now
        hempty]
      exact hnodup
    · push_neg at hempty
      rw [run_news_items_urls store category cfg fetched positions oracle now
        hempty.1 hempty.2, List.nodup_append]
      refine ⟨hnodup, filter_new_urls_nodup _ _, ?_⟩
      intro a ha hb
      obtain ⟨x, hxmem, hxe⟩ := List.mem_map.mp hb
      have h3 := (mem_filter_new _ _ x hxmem).2.2
      rw [hxe] at h3
      exact h3 ha
  · by_cases hfe : fetched = []
    · exact run_news_items_early _ category cfg fetched positions' oracle' now'
        (Or.inl hfe)
    · have hcov : ∀ x ∈ fetched, ∀ u, x.url = some u → u ≠ "" →
          u ∈ ((_process_source_config store category cfg fetched positions
            oracle now).1.news_items.map (fun n => n.url)) :=
        fun x hx u hu hne =>
          run_cover store category cfg fetched positions oracle now x u hx hu hne
      have h2 : runFresh (_process_source_config store category cfg fetched
          positions oracle now).1 fetched = [] :=
        filter_new_eq_nil _ _ hcov
      exact run_news_items_early _ category cfg fetched positions' oracle' now'
        (Or.inr h2)

/-- A store that already holds a NewsItem row with URL "a". -/
def storeA : Store :=
  ⟨[], [⟨0, 0, "t", "", "", "a", 0, "ai", true⟩], [], [], 1⟩

/-- A fetch batch with one already-persisted URL, one duplicated URL, and
one missing URL. -/
def fetchedA : List FetchedItem :=
  [⟨"Some long title here", "", some "a", 0, ""⟩,
   ⟨"Another title here!", "", some "b", 0, ""⟩,
   ⟨"Another title here!", "", some "b", 0, ""⟩,
   ⟨"No url item title", "", none, 0, ""⟩]

/-- C1 witness: re-running a concrete ingestion with identical fetch
results leaves the NewsItem table unchanged. -/
theorem claim_C1_witness :
    (_process_source_config
        (_process_source_config storeA NewsCategory.AI sampleCfg fetchedA
          ["backend"] (fun _ _ => GenOutcome.escape) 0).1
        NewsCategory.AI sampleCfg fetchedA ["backend"]
        (fun _ _ => GenOutcome.escape) 0).1.news_items
      = (_process_source_config storeA NewsCategory.AI sampleCfg fetchedA
          ["backend"] (fun _ _ => GenOutcome.escape) 0).1.news_items :=
  (claim_C1 storeA NewsCategory.AI sampleCfg fetchedA ["backend"] ["backend"]
    (fun _ _ => GenOutcome.escape) (fun _ _ => GenOutcome.escape) 0 0
    (by decide)).2.2

end MockMate

namespace MockMate

/-! ### C4: per-pair failure isolation -/

lemma generate_error (news_item : FetchedItem) (position : String)
    (category : NewsCategory) (now : Int) (e : Unit) :
    generate_question_from_news news_item position category (.error e) now
      = (none, "", 0) := by
  unfold generate_question_from_news
  split
  · rfl
  · rfl

lemma pairOutcome_escape (news_items : List FetchedItem)
    (category : NewsCategory) (oracle : Nat → String → GenOutcome)
    (now : Int) (ip : Nat × String) (h : oracle ip.1 ip.2 = .escape) :
    pairOutcome news_items category oracle now ip = none := by
  unfold pairOutcome
  rw [h]

lemma pairOutcome_error (news_items : List FetchedItem)
    (category : NewsCategory) (oracle : Nat → String → GenOutcome)
    (now : Int) (ip : Nat × String)
    (h : oracle ip.1 ip.2 = .ret (.error ())) :
    pairOutcome news_items category oracle now ip = none := by
  simp only [pairOutcome, h, generate_error]

lemma pairOutcome_oracle_congr (news_items : List FetchedItem)
    (category : NewsCategory) (oracle oracle' : Nat → String → GenOutcome)
    (now : Int) (ip : Nat × String) (h : oracle ip.1 ip.2 = oracle' ip.1 ip.2) :
    pairOutcome news_items category oracle now ip
      = pairOutcome news_items category oracle' now ip := by
  unfold pairOutcome
  rw [h]

lemma filterMap_filter_comm {α β : Type} (f : α → Option β) (p : β → Bool)
    (l : List α) :
    (l.filterMap f).filter p = l.filterMap (fun a => (f a).filter p) := by
  induction l with
  | nil => rfl
  | cons a l ih =>
    rw [List.filterMap_cons, List.filterMap_cons]
    cases hfa : f a with
    | none => simpa using ih
    | some b =>
      by_cases hb : p b
      · simp [Option.filter, hb, List.filter_cons, ih]
      · simp [Option.filter, hb, List.filter_cons, ih]

/-- C4 (claim theorem): (i) a pair whose generation task escapes with an
exception at the gather, or whose model call raises, contributes no result;
(ii) changing the oracle at one (item, position) pair leaves every sibling
pair's results unchanged; (iii) in the concrete scenario — one item, the
"backend" task throwing, the "frontend" task succeeding with an accepted
score — exactly one Question and one NewsBasedQuestion row are created, for
"frontend" only. -/
theorem claim_C4 :
    (∀ (news_items : List FetchedItem) (positions : List String)
        (category : NewsCategory) (oracle : Nat → String → GenOutcome)
        (now : Int) (i : Nat) (p : String),
        (oracle i p = .escape ∨ oracle i p = .ret (.error ())) →
        ∀ r ∈ _generate_questions_for_news_items news_items positions category
          oracle now,
          ¬(r.news_index = i ∧ r.question_data.position = p))
    ∧ (∀ (news_items : List FetchedItem) (positions : List String)
        (category : NewsCategory) (oracle oracle' : Nat → String → GenOutcome)
        (now : Int) (i : Nat) (p : String),
        (∀ j q, ¬(j = i ∧ q = p) → oracle j q = oracle' j q) →
        (_generate_questions_for_news_items news_items positions category
            oracle now).filter
            (fun r => !(decide (r.news_index = i
              ∧ r.question_data.position = p)))
          = (_generate_questions_for_news_items news_items positions category
              oracle' now).filter
              (fun r => !(decide (r.news_index = i
                ∧ r.question_data.position = p))))
    ∧ ((_process_source_config emptyStore NewsCategory.AI sampleCfg
          [sampleItem] ["backend", "frontend"] sampleOracle 0).1.questions.length
          = 1
        ∧ (_process_source_config emptyStore NewsCategory.AI sampleCfg
            [sampleItem] ["backend", "frontend"] sampleOracle
            0).1.news_based.length = 1
        ∧ ((_process_source_config emptyStore NewsCategory.AI sampleCfg
            [sampleItem] ["backend", "frontend"] sampleOracle
            0).1.questions.getD 0 default).position = "frontend"
        ∧ (_process_source_config emptyStore NewsCategory.AI sampleCfg
            [sampleItem] ["backend", "frontend"] sampleOracle 0).2 = 1) := by
  refine ⟨?_, ?_, by decide⟩
  · intro news_items positions category oracle now i p h r hr he
    unfold _generate_questions_for_news_items at hr
    split at hr
    · simp at hr
    · obtain ⟨ip, -, hpo⟩ := List.mem_filterMap.mp hr
      obtain ⟨h1, h2, -⟩ := pairOutcome_shape _ _ _ _ _ _ hpo
      have hip : ip = (i, p) := by
        have e1 : ip.1 = i := by rw [← h1, he.1]
        have e2 : ip.2 = p := by rw [← h2, he.2]
        exact Prod.ext e1 e2
      rw [hip] at hpo
      rcases h with h | h
      · rw [pairOutcome_escape _ _ _ _ _ h] at hpo
        exact absurd hpo (by simp)
      · rw [pairOutcome_error _ _ _ _ _ h] at hpo
        exact absurd hpo (by simp)
  · intro news_items positions category oracle oracle' now i p h
    unfold _generate_questions_for_news_items
    split
    · rfl
    · rw [filterMap_filter_comm, filterMap_filter_comm]
      congr 1
      funext ip
      by_cases hip : ip.1 = i ∧ ip.2 = p
      · have e1 : ∀ (o : Nat → String → GenOutcome),
            (pairOutcome news_items category o now ip).filter
              (fun r => !(decide (r.news_index = i
                ∧ r.question_data.position = p))) = none := by
          intro o
          cases hpo : pairOutcome news_items category o now ip with
          | none => rfl
          | some r =>
            obtain ⟨h1, h2, -⟩ := pairOutcome_shape _ _ _ _ _ _ hpo
            simp [Option.filter, h1, h2, hip.1, hip.2]
        rw [e1 oracle, e1 oracle']
      · rw [pairOutcome_oracle_congr news_items category oracle oracle' now ip
          (h ip.1 ip.2 hip)]

/-- C4 witness: in the concrete scenario the surviving result is not the
"backend" pair. -/
theorem claim_C4_witness :
    ¬((GeneratedNewsQuestionResult.mk 0
        ⟨"What do you think about it?", QuestionType.OPINION, "frontend",
          "medium", ["current trends", "industry insight", "technical opinion"]⟩
        "topical" (7/10)).news_index = 0
      ∧ (GeneratedNewsQuestionResult.mk 0
        ⟨"What do you think about it?", QuestionType.OPINION, "frontend",
          "medium", ["current trends", "industry insight", "technical opinion"]⟩
        "topical" (7/10)).question_data.position = "backend") :=
  claim_C4.1 [sampleItem] ["backend", "frontend"] NewsCategory.AI sampleOracle
    0 0 "backend" (Or.inl rfl) _ (by decide)

/-! ### C6: the scheduler tick -/

/-- C6 (claim theorem): (i) the staleness guard is satisfied exactly when
some source has a `last_fetched` timestamp within the last 4 hours; (ii)
when it is satisfied the tick returns the store unchanged — for every fetch
and generation oracle, i.e. no fetch and no ingestion happens; (iii)
otherwise the tick runs the orchestrator over all categories with a
per-source limit of 5. -/
theorem claim_C6 (store : Store)
    (fetchO : SourceConfig → Nat → List FetchedItem)
    (genO : SourceConfig → Nat → String → GenOutcome) (now : Int) :
    (anyRecentFetch store now = true
      ↔ ∃ s ∈ store.sources, ∃ t, s.last_fetched = some t
          ∧ now - 4 * 3600 ≤ t)
    ∧ (anyRecentFetch store now = true →
        fetch_news_task store fetchO genO now = store)
    ∧ (anyRecentFetch store now = false →
        fetch_news_task store fetchO genO now
          = (process_news_and_generate_questions store none 5 fetchO genO
              now).1) := by
  refine ⟨?_, ?_, ?_⟩
  · unfold anyRecentFetch
    rw [List.any_eq_true]
    constructor
    · rintro ⟨s, hs, hb⟩
      refine ⟨s, hs, ?_⟩
      cases hl : s.last_fetched with
      | none => rw [hl] at hb; exact absurd hb (by simp)
      | some t =>
        rw [hl] at hb
        exact ⟨t, rfl, of_decide_eq_true hb⟩
    · rintro ⟨s, hs, t, hl, hle⟩
      refine ⟨s, hs, ?_⟩
      rw [hl]
      exact decide_eq_true hle
  · intro h
    unfold fetch_news_task
    rw [if_pos h]
  · intro h
    unfold fetch_news_task
    rw [if_neg (by rw [h]; simp)]

/-- A store whose single source was fetched one hour before the sample
clock value 3610. -/
def storeR : Store := ⟨[⟨0, "n", .RSS, "u", "ai", true, some 10⟩], [], [], [], 1⟩

/-- C6 witness: with the most recent `last_fetched` one hour old, the tick
changes nothing. -/
theorem claim_C6_witness :
    fetch_news_task storeR (fun _ _ => []) (fun _ _ _ => GenOutcome.escape)
      3610 = storeR :=
  (claim_C6 storeR (fun _ _ => []) (fun _ _ _ => GenOutcome.escape)
    3610).2.1 (by decide)

/-- C10 witness: a concrete successful generation whose score 0.7 exceeds
the acceptance threshold. -/
theorem claim_C10_witness :
    (3:ℚ)/10 < (generate_question_from_news sampleItem "backend"
      NewsCategory.AI (Except.ok "") 0).2.2 := by
  have h : generate_question_from_news sampleItem "backend" NewsCategory.AI
      (Except.ok "") 0
      = (some ⟨"", QuestionType.BEHAVIORAL, "backend", "medium",
          ["current trends", "industry insight", "technical opinion"]⟩,
        "", 7/10) := by decide
  rw [h]
  exact claim_C10.2 sampleItem "backend" NewsCategory.AI (Except.ok "") 0
    _ "" (7/10) h

end MockMate
